import Mathlib

/-!
Shallow embedding of `src/databricks/sql/cloudfetch/download_manager.py`
(`ResultFileDownloadManager`), the cloud-fetch download scheduler.

The scheduler's own state and algorithms are translated directly from the
Python source.  The two external collaborators are modelled as oracles:

* each `ResultLink` carries, besides the `startRowOffset`/`rowCount` fields the
  scheduler reads, the behaviour of the remote file it points to — the payload
  a successful download yields and the terminal outcome of each download
  attempt (`outcomes k` is what the `k`-th wait inside one resolve phase
  observes, attempt `k + 1` following the `k`-th resubmission);
* the thread pool's acceptance of `submit` calls during a scheduling pass is
  an oracle `pool_ok : Nat → Bool`, indexed by submission attempt.

Machine integers are modelled as `Nat`: row offsets, row counts and the retry
counter are non-negative in the source's data model.
-/

/-- Terminal outcome of one download attempt, as `_check_if_download_successful`
observes it through the handler's status fields: `is_file_download_successful`
returning `True` is `success`; otherwise `is_link_expired` gives `expired`,
`is_download_timedout` gives `timedOut`, and any other failure is `failed`. -/
inductive Outcome where
  | success
  | expired
  | timedOut
  | failed
deriving DecidableEq, Repr

/-- A `TSparkArrowResultLink` as the scheduler sees it, together with the
external download behaviour of the file it references: `fileBytes` is the
payload a successful download would produce (opaque bytes, modelled as `Nat`),
and `outcomes` is the attempt-indexed outcome oracle described above. -/
structure ResultLink where
  startRowOffset : Nat
  rowCount : Nat
  fileBytes : Nat
  outcomes : Nat → Outcome

/-- `ResultSetDownloadHandler` as the scheduler reads and writes it: the
wrapped link plus the `is_download_scheduled` flag. -/
structure Handler where
  result_link : ResultLink
  is_download_scheduled : Bool

/-- The `DownloadableResultSettings` namedtuple.  `download_retry_wait_time`
is a fractional duration in the source (`0.1`), modelled as a rational. -/
structure DownloadableResultSettings where
  is_lz4_compressed : Bool
  result_file_link_expiry_buffer : Nat
  download_timeout : Nat
  use_proxy : Bool
  disable_proxy_for_cloud_fetch : Bool
  proxy_host : String
  proxy_port : Nat
  proxy_uid : String
  proxy_pwd : String
  max_consecutive_file_download_retries : Nat
  download_retry_wait_time : ℚ

/-- The `DownloadedFile` namedtuple returned to the consumer. -/
structure DownloadedFile where
  file_bytes : Nat
  start_row_offset : Nat
  row_count : Nat
deriving DecidableEq, Repr

/-- The mutable fields of `ResultFileDownloadManager`.  The thread pool object
itself (`max_download_threads + 1` workers) lives outside this state; its
acceptance of submissions is the `pool_ok` oracle passed to
`get_next_downloaded_file`. -/
structure ResultFileDownloadManager where
  download_handlers : List Handler
  downloadable_result_settings : DownloadableResultSettings
  fetch_need_retry : Bool
  num_consecutive_result_file_download_retries : Nat
  cloud_fetch_index : Nat

namespace ResultFileDownloadManager

/-- `_get_downloadable_result_settings`. -/
def get_downloadable_result_settings (lz4_compressed : Bool) :
    DownloadableResultSettings :=
  { is_lz4_compressed := lz4_compressed
    result_file_link_expiry_buffer := 0
    download_timeout := 0
    use_proxy := false
    disable_proxy_for_cloud_fetch := false
    proxy_host := ""
    proxy_port := 0
    proxy_uid := ""
    proxy_pwd := ""
    max_consecutive_file_download_retries := 0
    download_retry_wait_time := 1 / 10 }

/-- `__init__` (the `max_download_threads` argument only sizes the external
thread pool). -/
def new (_max_download_threads : Nat) (lz4_compressed : Bool) :
    ResultFileDownloadManager :=
  { download_handlers := []
    downloadable_result_settings := get_downloadable_result_settings lz4_compressed
    fetch_need_retry := false
    num_consecutive_result_file_download_retries := 0
    cloud_fetch_index := 0 }

/-- The loop body of `add_file_links`: `for link in links: if link.rowCount <=
0: continue; self.download_handlers.append(ResultSetDownloadHandler(settings,
link))`. -/
def appendHandlers : List Handler → List ResultLink → List Handler
  | hs, [] => hs
  | hs, link :: rest =>
    if link.rowCount ≤ 0 then appendHandlers hs rest
    else
      appendHandlers (hs ++ [{ result_link := link, is_download_scheduled := false }]) rest

/-- `add_file_links`. -/
def add_file_links (self : ResultFileDownloadManager)
    (t_spark_arrow_result_links : List ResultLink) (next_row_index : Nat) :
    ResultFileDownloadManager :=
  { self with
    download_handlers :=
      appendHandlers self.download_handlers t_spark_arrow_result_links
    cloud_fetch_index := next_row_index }

/-- `_remove_past_handlers`: the in-place pop loop keeps, in order, exactly the
handlers whose range ends strictly after `next_row_index`. -/
def remove_past_handlers : List Handler → Nat → List Handler
  | [], _ => []
  | h :: rest, next_row_index =>
    if h.result_link.startRowOffset + h.result_link.rowCount > next_row_index then
      h :: remove_past_handlers rest next_row_index
    else
      remove_past_handlers rest next_row_index

/-- `_schedule_downloads`: submit every not-yet-scheduled handler to the pool
in list order, marking it scheduled on success; `pool_ok k` says whether the
`k`-th `thread_pool.submit` call of this pass succeeds; a failed submit is
logged and breaks the loop, leaving that handler and every later one
untouched. -/
def schedule_downloads (pool_ok : Nat → Bool) : List Handler → Nat → List Handler
  | [], _ => []
  | h :: rest, k =>
    if h.is_download_scheduled then h :: schedule_downloads pool_ok rest k
    else if pool_ok k then
      { h with is_download_scheduled := true } :: schedule_downloads pool_ok rest (k + 1)
    else h :: rest

/-- The list comprehension inside `_find_next_file_index`: indices of
scheduled handlers whose link starts exactly at `next_row_index`. -/
def next_indices : List Handler → Nat → List Nat
  | [], _ => []
  | h :: rest, next_row_index =>
    if h.is_download_scheduled && h.result_link.startRowOffset == next_row_index then
      0 :: (next_indices rest next_row_index).map (· + 1)
    else
      (next_indices rest next_row_index).map (· + 1)

/-- `_find_next_file_index`: `next_indices[0] if len(next_indices) > 0 else
None`. -/
def find_next_file_index (hs : List Handler) (next_row_index : Nat) : Option Nat :=
  (next_indices hs next_row_index).head?

/-- `_stop_all_downloads_and_clear_handlers`. -/
def stop_all_downloads_and_clear_handlers (self : ResultFileDownloadManager) :
    ResultFileDownloadManager :=
  { self with download_handlers := [] }

/-- `_check_if_download_successful`: wait for the located handler's outcome and
apply the resolution policy, recursing on timeout while the retry budget
allows.  Returns the updated state, the success flag, and — as a ghost counter
for stating the retry-budget property — the number of
`thread_pool.submit(handler)` resubmissions performed; `attempt` indexes the
download attempt whose outcome the wait observes. -/
def check_if_download_successful (self : ResultFileDownloadManager)
    (handler : Handler) (attempt : Nat) (resubmissions : Nat) :
    ResultFileDownloadManager × Bool × Nat :=
  match handler.result_link.outcomes attempt with
  | Outcome.expired =>
      ({ stop_all_downloads_and_clear_handlers self with fetch_need_retry := true },
        false, resubmissions)
  | Outcome.timedOut =>
      if self.downloadable_result_settings.max_consecutive_file_download_retries ≤
          self.num_consecutive_result_file_download_retries then
        ({ self with fetch_need_retry := true }, false, resubmissions)
      else
        check_if_download_successful
          { self with num_consecutive_result_file_download_retries :=
              self.num_consecutive_result_file_download_retries + 1 }
          handler (attempt + 1) (resubmissions + 1)
  | Outcome.failed =>
      ({ self with fetch_need_retry := true }, false, resubmissions)
  | Outcome.success =>
      ({ self with
          num_consecutive_result_file_download_retries := 0
          fetch_need_retry := false }, true, resubmissions)
termination_by
  self.downloadable_result_settings.max_consecutive_file_download_retries -
    self.num_consecutive_result_file_download_retries
decreasing_by
  simp_wf
  omega

/-- `get_next_downloaded_file`: evict, schedule, locate, resolve.  Returns the
updated state, the delivered chunk (or `none` for the `NotReady` signal), and
the ghost resubmission count from the resolve phase. -/
def get_next_downloaded_file (self : ResultFileDownloadManager)
    (pool_ok : Nat → Bool) (next_row_index : Nat) :
    ResultFileDownloadManager × Option DownloadedFile × Nat :=
  if self.download_handlers.isEmpty then (self, none, 0)
  else
    let handlers :=
      schedule_downloads pool_ok
        (remove_past_handlers self.download_handlers next_row_index) 0
    let self1 := { self with download_handlers := handlers }
    match find_next_file_index handlers next_row_index with
    | none => (self1, none, 0)
    | some idx =>
      match handlers[idx]? with
      | none => (self1, none, 0)
      | some handler =>
        match check_if_download_successful self1 handler 0 0 with
        | (self2, true, resubmissions) =>
            ({ self2 with
                cloud_fetch_index :=
                  self2.cloud_fetch_index + handler.result_link.rowCount
                download_handlers := self2.download_handlers.eraseIdx idx },
              some { file_bytes := handler.result_link.fileBytes
                     start_row_offset := handler.result_link.startRowOffset
                     row_count := handler.result_link.rowCount },
              resubmissions)
        | (self2, false, resubmissions) => (self2, none, resubmissions)

/-- The consumer loop of the no-gaps property: call `get_next_downloaded_file`
repeatedly, each time at the row index immediately following the previously
delivered chunk, stopping on `NotReady` or when the fuel runs out. -/
def fetchAll (pool_ok : Nat → Bool) :
    ResultFileDownloadManager → Nat → Nat → List DownloadedFile
  | _, _, 0 => []
  | st, r, fuel + 1 =>
    match get_next_downloaded_file st pool_ok r with
    | (st1, some c, _) => c :: fetchAll pool_ok st1 (r + c.row_count) fuel
    | (_, none, _) => []

end ResultFileDownloadManager

/-- Handler `h` covers row `x`. -/
def coversRow (h : Handler) (x : Nat) : Prop :=
  h.result_link.startRowOffset ≤ x ∧
    x < h.result_link.startRowOffset + h.result_link.rowCount

/-- The row ranges of two handlers do not overlap. -/
def RangesDisjoint (a b : Handler) : Prop :=
  a.result_link.startRowOffset + a.result_link.rowCount ≤ b.result_link.startRowOffset ∨
    b.result_link.startRowOffset + b.result_link.rowCount ≤ a.result_link.startRowOffset

/-- The handlers' row ranges form a gap-free, non-overlapping cover of
`[r, N)`: every range is non-empty and contained in `[r, N)`, ranges are
pairwise disjoint, and every row of `[r, N)` is covered. -/
def TilesRows (hs : List Handler) (r N : Nat) : Prop :=
  r ≤ N ∧
    (∀ h ∈ hs, r ≤ h.result_link.startRowOffset ∧
      h.result_link.startRowOffset + h.result_link.rowCount ≤ N ∧
      0 < h.result_link.rowCount) ∧
    List.Pairwise RangesDisjoint hs ∧
    (∀ x, r ≤ x → x < N → ∃ h ∈ hs, coversRow h x)

/-- The delivered chunks, in delivery order, tile `[r, N)` exactly: each chunk
starts where the previous one ended, is non-empty, and the last ends at `N`. -/
def ChunksTile : List DownloadedFile → Nat → Nat → Prop
  | [], r, N => r = N
  | c :: rest, r, N =>
      c.start_row_offset = r ∧ 0 < c.row_count ∧ ChunksTile rest (r + c.row_count) N

/-! ### Concrete fixtures used by witnesses and counterexamples -/

/-- A link whose download always succeeds, covering rows 0..10. -/
def okLink : ResultLink :=
  { startRowOffset := 0, rowCount := 10, fileBytes := 1
    outcomes := fun _ => Outcome.success }

/-- A successful link covering rows 0..5 with payload 77. -/
def dupLinkA : ResultLink :=
  { startRowOffset := 0, rowCount := 5, fileBytes := 77
    outcomes := fun _ => Outcome.success }

/-- A second successful link also covering rows 0..5, payload 88. -/
def dupLinkB : ResultLink :=
  { startRowOffset := 0, rowCount := 5, fileBytes := 88
    outcomes := fun _ => Outcome.success }

/-- A successful link covering rows 10..25. -/
def secondLink : ResultLink :=
  { startRowOffset := 10, rowCount := 15, fileBytes := 5
    outcomes := fun _ => Outcome.success }

/-- A link covering rows 10..15 whose download always reports expiry. -/
def lateExpiredLink : ResultLink :=
  { startRowOffset := 10, rowCount := 5, fileBytes := 3
    outcomes := fun _ => Outcome.expired }

/-- A link covering rows 0..7 whose download always reports expiry. -/
def expiredLink : ResultLink :=
  { startRowOffset := 0, rowCount := 7, fileBytes := 2
    outcomes := fun _ => Outcome.expired }

/-- A link covering rows 0..4 whose download always times out. -/
def timeoutLink : ResultLink :=
  { startRowOffset := 0, rowCount := 4, fileBytes := 9
    outcomes := fun _ => Outcome.timedOut }

/-- A link covering rows 0..6 whose download always fails (non-timeout). -/
def failedLink : ResultLink :=
  { startRowOffset := 0, rowCount := 6, fileBytes := 4
    outcomes := fun _ => Outcome.failed }

namespace ResultFileDownloadManager

/-- A manager state with the given pending handlers and otherwise fresh
fields (default settings, flags cleared, cursor 0). -/
def exampleState (hs : List Handler) : ResultFileDownloadManager :=
  { download_handlers := hs
    downloadable_result_settings := get_downloadable_result_settings false
    fetch_need_retry := false
    num_consecutive_result_file_download_retries := 0
    cloud_fetch_index := 0 }

/-- Two scheduled pending handlers that both start at row 0. -/
def dupState : ResultFileDownloadManager :=
  exampleState [{ result_link := dupLinkA, is_download_scheduled := true },
                { result_link := dupLinkB, is_download_scheduled := true }]

/-- One always-timing-out pending handler, with a retry budget of 2. -/
def timeoutState : ResultFileDownloadManager :=
  { exampleState [{ result_link := timeoutLink, is_download_scheduled := false }] with
    downloadable_result_settings :=
      { get_downloadable_result_settings false with
          max_consecutive_file_download_retries := 2 } }

/-- A successful handler for rows 0..10 followed by a pending handler for
rows 10..15 whose link has expired. -/
def expiredPendingState : ResultFileDownloadManager :=
  exampleState [{ result_link := okLink, is_download_scheduled := false },
                { result_link := lateExpiredLink, is_download_scheduled := false }]

/-- A single pending handler whose link has expired. -/
def expiredOnlyState : ResultFileDownloadManager :=
  exampleState [{ result_link := expiredLink, is_download_scheduled := false }]

/-- A single pending handler whose download succeeds. -/
def okOnlyState : ResultFileDownloadManager :=
  exampleState [{ result_link := okLink, is_download_scheduled := false }]

/-- A single pending handler whose download always fails. -/
def failedOnlyState : ResultFileDownloadManager :=
  exampleState [{ result_link := failedLink, is_download_scheduled := false }]

/-- The spec scenario: links covering rows 0..10 and 10..25, both
successful. -/
def scenarioState : ResultFileDownloadManager :=
  exampleState [{ result_link := okLink, is_download_scheduled := false },
                { result_link := secondLink, is_download_scheduled := false }]

end ResultFileDownloadManager

namespace ResultFileDownloadManager

/-! ### Eviction lemmas -/

lemma mem_remove_past_handlers {hs : List Handler} {n : Nat} {h : Handler} :
    h ∈ remove_past_handlers hs n ↔
      h ∈ hs ∧ n < h.result_link.startRowOffset + h.result_link.rowCount := by
  induction hs with
  | nil => simp [remove_past_handlers]
  | cons a rest ih =>
    by_cases ha : a.result_link.startRowOffset + a.result_link.rowCount > n
    · simp only [remove_past_handlers, if_pos ha, List.mem_cons, ih]
      constructor
      · rintro (rfl | ⟨hm, hlt⟩)
        · exact ⟨Or.inl rfl, ha⟩
        · exact ⟨Or.inr hm, hlt⟩
      · rintro ⟨rfl | hm, hlt⟩
        · exact Or.inl rfl
        · exact Or.inr ⟨hm, hlt⟩
    · simp only [remove_past_handlers, if_neg ha, List.mem_cons, ih]
      constructor
      · rintro ⟨hm, hlt⟩
        exact ⟨Or.inr hm, hlt⟩
      · rintro ⟨rfl | hm, hlt⟩
        · exact absurd hlt ha
        · exact ⟨hm, hlt⟩

lemma remove_past_handlers_sublist (hs : List Handler) (n : Nat) :
    (remove_past_handlers hs n).Sublist hs := by
  induction hs with
  | nil => simp [remove_past_handlers]
  | cons a rest ih =>
    simp only [remove_past_handlers]
    split
    · exact ih.cons₂ a
    · exact ih.cons a

lemma remove_past_handlers_eq_self {hs : List Handler} {n : Nat}
    (H : ∀ h ∈ hs, n < h.result_link.startRowOffset + h.result_link.rowCount) :
    remove_past_handlers hs n = hs := by
  induction hs with
  | nil => rfl
  | cons a rest ih =>
    have ha := H a (List.mem_cons_self a rest)
    simp only [remove_past_handlers, if_pos ha]
    exact congrArg (a :: ·) (ih fun h hm => H h (List.mem_cons_of_mem a hm))

/-! ### Scheduling lemmas -/

lemma schedule_downloads_map_link (pool_ok : Nat → Bool) (hs : List Handler) (k : Nat) :
    (schedule_downloads pool_ok hs k).map Handler.result_link =
      hs.map Handler.result_link := by
  induction hs generalizing k with
  | nil => rfl
  | cons a rest ih =>
    simp only [schedule_downloads]
    split
    · simp [ih]
    · split
      · simp [ih]
      · rfl

lemma schedule_downloads_length (pool_ok : Nat → Bool) (hs : List Handler) (k : Nat) :
    (schedule_downloads pool_ok hs k).length = hs.length := by
  have := congrArg List.length (schedule_downloads_map_link pool_ok hs k)
  simpa using this

/-- Full characterization of one scheduling pass: the list splits into a
prefix whose handlers all come out marked scheduled and an untouched suffix;
a non-empty suffix starts at an unscheduled handler whose submission the pool
rejected. -/
lemma schedule_downloads_characterization (pool_ok : Nat → Bool)
    (hs : List Handler) (k : Nat) :
    ∃ pre suf, hs = pre ++ suf ∧
      schedule_downloads pool_ok hs k =
        pre.map (fun h => { h with is_download_scheduled := true }) ++ suf ∧
      (suf ≠ [] → ∃ h t, suf = h :: t ∧ h.is_download_scheduled = false ∧
        pool_ok (k + (pre.filter fun x => !x.is_download_scheduled).length) = false) := by
  induction hs generalizing k with
  | nil => exact ⟨[], [], rfl, rfl, by simp⟩
  | cons a rest ih =>
    by_cases ha : a.is_download_scheduled
    · obtain ⟨pre, suf, hsplit, hres, hsuf⟩ := ih k
      refine ⟨a :: pre, suf, by simp [hsplit], ?_, ?_⟩
      · have : ({ a with is_download_scheduled := true } : Handler) = a := by
          cases a with
          | mk l s => simp_all
        simp only [schedule_downloads, if_pos ha, hres, List.map_cons, this,
          List.cons_append]
      · intro hne
        obtain ⟨h, t, rfl, hhs, hpool⟩ := hsuf hne
        refine ⟨h, t, rfl, hhs, ?_⟩
        simpa [List.filter_cons, ha] using hpool
    · by_cases hk : pool_ok k = true
      · obtain ⟨pre, suf, hsplit, hres, hsuf⟩ := ih (k + 1)
        refine ⟨a :: pre, suf, by simp [hsplit], ?_, ?_⟩
        · simp only [schedule_downloads, if_neg ha, if_pos hk, hres, List.map_cons,
            List.cons_append]
        · intro hne
          obtain ⟨h, t, rfl, hhs, hpool⟩ := hsuf hne
          refine ⟨h, t, rfl, hhs, ?_⟩
          have : (List.filter (fun x => !x.is_download_scheduled) (a :: pre)).length =
              (List.filter (fun x => !x.is_download_scheduled) pre).length + 1 := by
            simp [List.filter_cons, ha]
          rw [this]
          have : k + ((pre.filter fun x => !x.is_download_scheduled).length + 1) =
              k + 1 + (pre.filter fun x => !x.is_download_scheduled).length := by omega
          rw [this]
          exact hpool
      · refine ⟨[], a :: rest, rfl, ?_, ?_⟩
        · simp only [schedule_downloads, if_neg ha, if_neg hk, List.map_nil,
            List.nil_append]
        · intro _
          refine ⟨a, rest, rfl, by simpa using ha, by simpa using hk⟩

/-! ### Locate lemmas -/

lemma mem_next_indices {hs : List Handler} {r i : Nat} :
    i ∈ next_indices hs r ↔
      ∃ h, hs[i]? = some h ∧ h.is_download_scheduled = true ∧
        h.result_link.startRowOffset = r := by
  induction hs generalizing i with
  | nil => simp [next_indices]
  | cons a rest ih =>
    by_cases hm : a.is_download_scheduled && a.result_link.startRowOffset == r
    · rw [Bool.and_eq_true, beq_iff_eq] at hm
      cases i with
      | zero =>
        simp only [next_indices, Bool.and_eq_true, beq_iff_eq, if_pos hm,
          List.mem_cons, List.mem_map, List.getElem?_cons_zero]
        constructor
        · intro _
          exact ⟨a, rfl, hm.1, hm.2⟩
        · intro _
          exact Or.inl trivial
      | succ j =>
        simp only [next_indices, Bool.and_eq_true, beq_iff_eq, if_pos hm,
          List.mem_cons, List.mem_map, List.getElem?_cons_succ]
        rw [← ih]
        constructor
        · rintro (h0 | ⟨x, hx, hxe⟩)
          · omega
          · have : x = j := by omega
            exact this ▸ hx
        · intro hj
          exact Or.inr ⟨j, hj, rfl⟩
    · rw [Bool.and_eq_true, beq_iff_eq] at hm
      cases i with
      | zero =>
        simp only [next_indices, Bool.and_eq_true, beq_iff_eq, if_neg hm,
          List.mem_map, List.getElem?_cons_zero]
        constructor
        · rintro ⟨x, _, hxe⟩
          omega
        · rintro ⟨h, hh, hsch, hoff⟩
          rw [Option.some_inj] at hh
          subst hh
          exact absurd ⟨hsch, hoff⟩ hm
      | succ j =>
        simp only [next_indices, Bool.and_eq_true, beq_iff_eq, if_neg hm,
          List.mem_map, List.getElem?_cons_succ]
        rw [← ih]
        constructor
        · rintro ⟨x, hx, hxe⟩
          have : x = j := by omega
          exact this ▸ hx
        · intro hj
          exact ⟨j, hj, rfl⟩

lemma find_next_file_index_spec {hs : List Handler} {r idx : Nat}
    (hfind : find_next_file_index hs r = some idx) :
    ∃ h, hs[idx]? = some h ∧ h.is_download_scheduled = true ∧
      h.result_link.startRowOffset = r := by
  refine mem_next_indices.mp ?_
  unfold find_next_file_index at hfind
  cases hni : next_indices hs r with
  | nil => rw [hni] at hfind; simp at hfind
  | cons x xs =>
    rw [hni] at hfind
    simp only [List.head?_cons, Option.some_inj] at hfind
    rw [← hfind]
    exact List.mem_cons_self x xs

lemma find_next_file_index_first {hs : List Handler} {r : Nat} :
    ∀ {idx : Nat}, find_next_file_index hs r = some idx →
      ∀ j, j < idx → ∀ h, hs[j]? = some h →
        ¬(h.is_download_scheduled = true ∧ h.result_link.startRowOffset = r) := by
  induction hs with
  | nil => intro idx hfind; simp [find_next_file_index, next_indices] at hfind
  | cons a rest ih =>
    intro idx hfind j hj h hh
    by_cases hm : a.is_download_scheduled && a.result_link.startRowOffset == r
    · simp only [find_next_file_index, next_indices, hm, if_true,
        List.head?_cons, Option.some_inj] at hfind
      exact absurd hj (by omega)
    · simp only [find_next_file_index, next_indices, hm, if_false, Bool.false_eq_true,
        List.head?_map] at hfind
      cases hrest : (next_indices rest r).head? with
      | none => rw [hrest] at hfind; simp at hfind
      | some idx0 =>
        rw [hrest] at hfind
        simp at hfind
        cases j with
        | zero =>
          simp only [List.getElem?_cons_zero, Option.some_inj] at hh
          rw [Bool.and_eq_true, beq_iff_eq] at hm
          rintro ⟨h1, h2⟩
          exact hm ⟨hh ▸ h1, hh ▸ h2⟩
        | succ j0 =>
          simp only [List.getElem?_cons_succ] at hh
          exact ih hrest j0 (by omega) h hh

lemma find_next_file_index_isSome {hs : List Handler} {r i : Nat} {h : Handler}
    (hi : hs[i]? = some h) (hsched : h.is_download_scheduled = true)
    (hoff : h.result_link.startRowOffset = r) :
    (find_next_file_index hs r).isSome := by
  have hmem : i ∈ next_indices hs r := mem_next_indices.mpr ⟨h, hi, hsched, hoff⟩
  unfold find_next_file_index
  cases hni : next_indices hs r with
  | nil => rw [hni] at hmem; simp at hmem
  | cons x xs => simp

/-- With a pool that accepts every submission, one pass marks every handler
scheduled and changes nothing else. -/
lemma schedule_downloads_all_ok {pool_ok : Nat → Bool}
    (hp : ∀ k, pool_ok k = true) (hs : List Handler) (k : Nat) :
    schedule_downloads pool_ok hs k =
      hs.map fun h => { h with is_download_scheduled := true } := by
  induction hs generalizing k with
  | nil => rfl
  | cons a rest ih =>
    by_cases ha : a.is_download_scheduled
    · have : ({ a with is_download_scheduled := true } : Handler) = a := by
        cases a with
        | mk l s => simp_all
      simp [schedule_downloads, if_pos ha, ih k, this]
    · simp [schedule_downloads, if_neg ha, hp k, ih (k + 1)]

/-! ### Resolve lemmas -/

lemma check_eq_success (self : ResultFileDownloadManager) (handler : Handler)
    (attempt resubmissions : Nat)
    (ho : handler.result_link.outcomes attempt = Outcome.success) :
    check_if_download_successful self handler attempt resubmissions =
      ({ self with
          num_consecutive_result_file_download_retries := 0
          fetch_need_retry := false }, true, resubmissions) := by
  unfold check_if_download_successful
  rw [ho]

lemma check_eq_expired (self : ResultFileDownloadManager) (handler : Handler)
    (attempt resubmissions : Nat)
    (ho : handler.result_link.outcomes attempt = Outcome.expired) :
    check_if_download_successful self handler attempt resubmissions =
      ({ stop_all_downloads_and_clear_handlers self with fetch_need_retry := true },
        false, resubmissions) := by
  unfold check_if_download_successful
  rw [ho]

lemma check_eq_failed (self : ResultFileDownloadManager) (handler : Handler)
    (attempt resubmissions : Nat)
    (ho : handler.result_link.outcomes attempt = Outcome.failed) :
    check_if_download_successful self handler attempt resubmissions =
      ({ self with fetch_need_retry := true }, false, resubmissions) := by
  unfold check_if_download_successful
  rw [ho]

lemma check_eq_timedOut_exhausted (self : ResultFileDownloadManager) (handler : Handler)
    (attempt resubmissions : Nat)
    (ho : handler.result_link.outcomes attempt = Outcome.timedOut)
    (hb : self.downloadable_result_settings.max_consecutive_file_download_retries ≤
      self.num_consecutive_result_file_download_retries) :
    check_if_download_successful self handler attempt resubmissions =
      ({ self with fetch_need_retry := true }, false, resubmissions) := by
  unfold check_if_download_successful
  rw [ho]
  simp [hb]

lemma check_eq_timedOut_retry (self : ResultFileDownloadManager) (handler : Handler)
    (attempt resubmissions : Nat)
    (ho : handler.result_link.outcomes attempt = Outcome.timedOut)
    (hb : ¬ self.downloadable_result_settings.max_consecutive_file_download_retries ≤
      self.num_consecutive_result_file_download_retries) :
    check_if_download_successful self handler attempt resubmissions =
      check_if_download_successful
        { self with num_consecutive_result_file_download_retries :=
            self.num_consecutive_result_file_download_retries + 1 }
        handler (attempt + 1) (resubmissions + 1) := by
  conv_lhs => rw [check_if_download_successful]
  rw [ho]
  simp [hb]

/-- A successful resolve returns the state with the retry counter cleared and
the retry flag lowered, and changes nothing else. -/
lemma check_success_state (self : ResultFileDownloadManager) (handler : Handler)
    (attempt resubmissions : Nat) :
    ∀ {st2 : ResultFileDownloadManager} {n : Nat},
      check_if_download_successful self handler attempt resubmissions = (st2, true, n) →
      st2 = { self with
              num_consecutive_result_file_download_retries := 0
              fetch_need_retry := false } := by
  induction self, handler, attempt, resubmissions using
      check_if_download_successful.induct with
  | case1 self handler attempt resubmissions ho =>
    intro st2 n h
    rw [check_eq_expired self handler attempt resubmissions ho] at h
    exact absurd (congrArg (fun p => p.2.1) h) (by simp)
  | case2 self handler attempt resubmissions ho hb =>
    intro st2 n h
    rw [check_eq_timedOut_exhausted self handler attempt resubmissions ho hb] at h
    exact absurd (congrArg (fun p => p.2.1) h) (by simp)
  | case3 self handler attempt resubmissions ho hb ih =>
    intro st2 n h
    rw [check_eq_timedOut_retry self handler attempt resubmissions ho hb] at h
    have := ih h
    rw [this]
  | case4 self handler attempt resubmissions ho =>
    intro st2 n h
    rw [check_eq_failed self handler attempt resubmissions ho] at h
    exact absurd (congrArg (fun p => p.2.1) h) (by simp)
  | case5 self handler attempt resubmissions ho =>
    intro st2 n h
    rw [check_eq_success self handler attempt resubmissions ho] at h
    exact (congrArg (fun p => p.1) h).symm

/-- A resolve of a handler that times out on every attempt performs exactly
`max - retries` resubmissions, then gives up with the retry flag raised and
the counter at the budget. -/
lemma check_all_timedOut (handler : Handler)
    (hto : ∀ k, handler.result_link.outcomes k = Outcome.timedOut) :
    ∀ (self : ResultFileDownloadManager) (attempt resubmissions : Nat),
      check_if_download_successful self handler attempt resubmissions =
        ({ self with
            num_consecutive_result_file_download_retries :=
              max self.downloadable_result_settings.max_consecutive_file_download_retries
                self.num_consecutive_result_file_download_retries
            fetch_need_retry := true }, false,
          resubmissions +
            (self.downloadable_result_settings.max_consecutive_file_download_retries -
              self.num_consecutive_result_file_download_retries)) := by
  intro self
  generalize hfuel : self.downloadable_result_settings.max_consecutive_file_download_retries -
    self.num_consecutive_result_file_download_retries = fuel
  induction fuel generalizing self with
  | zero =>
    intro attempt resubmissions
    have hb : self.downloadable_result_settings.max_consecutive_file_download_retries ≤
        self.num_consecutive_result_file_download_retries := by omega
    rw [check_eq_timedOut_exhausted self handler attempt resubmissions (hto attempt) hb]
    have hmax : max self.downloadable_result_settings.max_consecutive_file_download_retries
        self.num_consecutive_result_file_download_retries =
        self.num_consecutive_result_file_download_retries := by omega
    rw [hmax]
    simp
  | succ fuel ih =>
    intro attempt resubmissions
    have hb : ¬ self.downloadable_result_settings.max_consecutive_file_download_retries ≤
        self.num_consecutive_result_file_download_retries := by omega
    rw [check_eq_timedOut_retry self handler attempt resubmissions (hto attempt) hb]
    rw [ih _ (by simp; omega) (attempt + 1) (resubmissions + 1)]
    have h1 : max self.downloadable_result_settings.max_consecutive_file_download_retries
        (self.num_consecutive_result_file_download_retries + 1) =
        max self.downloadable_result_settings.max_consecutive_file_download_retries
          self.num_consecutive_result_file_download_retries := by omega
    have h2 : resubmissions + 1 +
        (self.downloadable_result_settings.max_consecutive_file_download_retries -
          (self.num_consecutive_result_file_download_retries + 1)) =
        resubmissions +
          (self.downloadable_result_settings.max_consecutive_file_download_retries -
            self.num_consecutive_result_file_download_retries) := by omega
    simp only [h1, h2]
    have h3 : resubmissions + 1 + fuel = resubmissions + (fuel + 1) := by omega
    rw [h3]

/-- A resolve whose handler never reports success and never reports expiry
returns `NotReady` with the retry flag raised, leaving the pending set, the
row cursor and the settings untouched; the retry counter can only grow. -/
lemma check_failure_frame (self : ResultFileDownloadManager) (handler : Handler)
    (attempt resubmissions : Nat)
    (hns : ∀ k, handler.result_link.outcomes k ≠ Outcome.success)
    (hne : ∀ k, handler.result_link.outcomes k ≠ Outcome.expired) :
    ∃ m, self.num_consecutive_result_file_download_retries ≤ m ∧
      ∃ n, resubmissions ≤ n ∧
        check_if_download_successful self handler attempt resubmissions =
          ({ self with
              num_consecutive_result_file_download_retries := m
              fetch_need_retry := true }, false, n) := by
  induction self, handler, attempt, resubmissions using
      check_if_download_successful.induct with
  | case1 self handler attempt resubmissions ho =>
    exact absurd ho (hne attempt)
  | case2 self handler attempt resubmissions ho hb =>
    refine ⟨self.num_consecutive_result_file_download_retries, le_refl _,
      resubmissions, le_refl _, ?_⟩
    rw [check_eq_timedOut_exhausted self handler attempt resubmissions ho hb]
  | case3 self handler attempt resubmissions ho hb ih =>
    obtain ⟨m, hm, n, hn, heq⟩ := ih hns hne
    refine ⟨m, by simp at hm; omega, n, by omega, ?_⟩
    rw [check_eq_timedOut_retry self handler attempt resubmissions ho hb, heq]
  | case4 self handler attempt resubmissions ho =>
    refine ⟨self.num_consecutive_result_file_download_retries, le_refl _,
      resubmissions, le_refl _, ?_⟩
    rw [check_eq_failed self handler attempt resubmissions ho]
  | case5 self handler attempt resubmissions ho =>
    exact absurd ho (hns attempt)

/-- The resolve phase never touches the row cursor. -/
lemma check_cloud_fetch_index (self : ResultFileDownloadManager) (handler : Handler)
    (attempt resubmissions : Nat) :
    (check_if_download_successful self handler attempt resubmissions).1.cloud_fetch_index =
      self.cloud_fetch_index := by
  induction self, handler, attempt, resubmissions using
      check_if_download_successful.induct with
  | case1 self handler attempt resubmissions ho =>
    rw [check_eq_expired self handler attempt resubmissions ho]
    rfl
  | case2 self handler attempt resubmissions ho hb =>
    rw [check_eq_timedOut_exhausted self handler attempt resubmissions ho hb]
  | case3 self handler attempt resubmissions ho hb ih =>
    rw [check_eq_timedOut_retry self handler attempt resubmissions ho hb]
    exact ih
  | case4 self handler attempt resubmissions ho =>
    rw [check_eq_failed self handler attempt resubmissions ho]
  | case5 self handler attempt resubmissions ho =>
    rw [check_eq_success self handler attempt resubmissions ho]

/-- The resolve phase either keeps the pending set or clears it (expiry). -/
lemma check_download_handlers (self : ResultFileDownloadManager) (handler : Handler)
    (attempt resubmissions : Nat) :
    (check_if_download_successful self handler attempt resubmissions).1.download_handlers =
        self.download_handlers ∨
      (check_if_download_successful self handler attempt resubmissions).1.download_handlers =
        [] := by
  induction self, handler, attempt, resubmissions using
      check_if_download_successful.induct with
  | case1 self handler attempt resubmissions ho =>
    rw [check_eq_expired self handler attempt resubmissions ho]
    right
    rfl
  | case2 self handler attempt resubmissions ho hb =>
    rw [check_eq_timedOut_exhausted self handler attempt resubmissions ho hb]
    left
    rfl
  | case3 self handler attempt resubmissions ho hb ih =>
    rw [check_eq_timedOut_retry self handler attempt resubmissions ho hb]
    exact ih
  | case4 self handler attempt resubmissions ho =>
    rw [check_eq_failed self handler attempt resubmissions ho]
    left
    rfl
  | case5 self handler attempt resubmissions ho =>
    rw [check_eq_success self handler attempt resubmissions ho]
    left
    rfl

/-- A scheduling pass changes no handler's link, only the scheduled flags. -/
lemma schedule_downloads_mem_link {pool_ok : Nat → Bool} {hs : List Handler} {k : Nat}
    {h : Handler} (hm : h ∈ schedule_downloads pool_ok hs k) :
    ∃ h0 ∈ hs, h0.result_link = h.result_link := by
  have hmap := schedule_downloads_map_link pool_ok hs k
  have : h.result_link ∈ hs.map Handler.result_link := by
    rw [← hmap]
    exact List.mem_map_of_mem Handler.result_link hm
  obtain ⟨h0, hh0, he⟩ := List.mem_map.mp this
  exact ⟨h0, hh0, he⟩

/-! ### One-step shapes of `get_next_downloaded_file` -/

lemma get_next_empty_eq (st : ResultFileDownloadManager) (pool_ok : Nat → Bool) (R : Nat)
    (he : st.download_handlers.isEmpty = true) :
    get_next_downloaded_file st pool_ok R = (st, none, 0) := by
  unfold get_next_downloaded_file
  rw [if_pos he]

lemma get_next_nofind_eq (st : ResultFileDownloadManager) (pool_ok : Nat → Bool) (R : Nat)
    (he : st.download_handlers.isEmpty = false)
    (hfind : find_next_file_index
      (schedule_downloads pool_ok (remove_past_handlers st.download_handlers R) 0) R = none) :
    get_next_downloaded_file st pool_ok R =
      ({ st with download_handlers :=
          schedule_downloads pool_ok (remove_past_handlers st.download_handlers R) 0 },
        none, 0) := by
  unfold get_next_downloaded_file
  rw [he]
  simp only [Bool.false_eq_true, if_false, hfind]

lemma get_next_checked_eq (st : ResultFileDownloadManager) (pool_ok : Nat → Bool)
    (R idx : Nat) (handler : Handler) (st2 : ResultFileDownloadManager) (ok : Bool) (n : Nat)
    (he : st.download_handlers.isEmpty = false)
    (hfind : find_next_file_index
      (schedule_downloads pool_ok (remove_past_handlers st.download_handlers R) 0) R =
      some idx)
    (hget : (schedule_downloads pool_ok (remove_past_handlers st.download_handlers R) 0)[idx]? =
      some handler)
    (hcheck : check_if_download_successful
      { st with download_handlers :=
          schedule_downloads pool_ok (remove_past_handlers st.download_handlers R) 0 }
      handler 0 0 = (st2, ok, n)) :
    get_next_downloaded_file st pool_ok R =
      if ok then
        ({ st2 with
            cloud_fetch_index := st2.cloud_fetch_index + handler.result_link.rowCount
            download_handlers := st2.download_handlers.eraseIdx idx },
          some { file_bytes := handler.result_link.fileBytes
                 start_row_offset := handler.result_link.startRowOffset
                 row_count := handler.result_link.rowCount }, n)
      else (st2, none, n) := by
  unfold get_next_downloaded_file
  rw [he]
  simp only [Bool.false_eq_true, if_false, hfind, hget, hcheck]
  cases ok with
  | true => rfl
  | false => rfl

/-- Exhaustive case analysis of one `get_next_downloaded_file` call. -/
lemma get_next_cases (st : ResultFileDownloadManager) (pool_ok : Nat → Bool) (R : Nat) :
    (st.download_handlers = [] ∧ get_next_downloaded_file st pool_ok R = (st, none, 0)) ∨
    (st.download_handlers ≠ [] ∧
      find_next_file_index
        (schedule_downloads pool_ok (remove_past_handlers st.download_handlers R) 0) R =
        none ∧
      get_next_downloaded_file st pool_ok R =
        ({ st with download_handlers :=
            schedule_downloads pool_ok (remove_past_handlers st.download_handlers R) 0 },
          none, 0)) ∨
    (st.download_handlers ≠ [] ∧
      ∃ idx handler st2 n,
        find_next_file_index
          (schedule_downloads pool_ok (remove_past_handlers st.download_handlers R) 0) R =
          some idx ∧
        (schedule_downloads pool_ok (remove_past_handlers st.download_handlers R) 0)[idx]? =
          some handler ∧
        check_if_download_successful
          { st with download_handlers :=
              schedule_downloads pool_ok (remove_past_handlers st.download_handlers R) 0 }
          handler 0 0 = (st2, true, n) ∧
        get_next_downloaded_file st pool_ok R =
          ({ st2 with
              cloud_fetch_index := st2.cloud_fetch_index + handler.result_link.rowCount
              download_handlers := st2.download_handlers.eraseIdx idx },
            some { file_bytes := handler.result_link.fileBytes
                   start_row_offset := handler.result_link.startRowOffset
                   row_count := handler.result_link.rowCount }, n)) ∨
    (st.download_handlers ≠ [] ∧
      ∃ idx handler st2 n,
        find_next_file_index
          (schedule_downloads pool_ok (remove_past_handlers st.download_handlers R) 0) R =
          some idx ∧
        (schedule_downloads pool_ok (remove_past_handlers st.download_handlers R) 0)[idx]? =
          some handler ∧
        check_if_download_successful
          { st with download_handlers :=
              schedule_downloads pool_ok (remove_past_handlers st.download_handlers R) 0 }
          handler 0 0 = (st2, false, n) ∧
        get_next_downloaded_file st pool_ok R = (st2, none, n)) := by
  by_cases he : st.download_handlers.isEmpty
  · exact Or.inl ⟨List.isEmpty_iff.mp he, get_next_empty_eq st pool_ok R he⟩
  · have he' : st.download_handlers.isEmpty = false := by
      cases hb : st.download_handlers.isEmpty
      · rfl
      · exact absurd hb he
    have hne : st.download_handlers ≠ [] := by
      intro hnil
      rw [hnil] at he'
      simp at he'
    right
    cases hfind : find_next_file_index
        (schedule_downloads pool_ok (remove_past_handlers st.download_handlers R) 0) R with
    | none =>
      exact Or.inl ⟨hne, rfl, get_next_nofind_eq st pool_ok R he' hfind⟩
    | some idx =>
      right
      obtain ⟨handler, hget, -, -⟩ := find_next_file_index_spec hfind
      rcases hcheck : check_if_download_successful
          { st with download_handlers :=
              schedule_downloads pool_ok (remove_past_handlers st.download_handlers R) 0 }
          handler 0 0 with ⟨st2, ok, n⟩
      have heq := get_next_checked_eq st pool_ok R idx handler st2 ok n he' hfind hget hcheck
      cases ok with
      | true =>
        left
        refine ⟨hne, idx, handler, st2, n, rfl, hget, hcheck, ?_⟩
        rw [heq]
        rfl
      | false =>
        right
        refine ⟨hne, idx, handler, st2, n, rfl, hget, hcheck, ?_⟩
        rw [heq]
        rfl

/-! ### Helper lemmas for the claims -/

lemma appendHandlers_eq (hs : List Handler) (links : List ResultLink) :
    appendHandlers hs links =
      hs ++ (links.filter fun l => 0 < l.rowCount).map
        (fun l => { result_link := l, is_download_scheduled := false }) := by
  induction links generalizing hs with
  | nil => simp [appendHandlers]
  | cons l rest ih =>
    by_cases h : l.rowCount ≤ 0
    · have h0 : ¬ (0 < l.rowCount) := by omega
      rw [appendHandlers, if_pos h, ih]
      simp [List.filter_cons, h0]
    · have h0 : 0 < l.rowCount := by omega
      rw [appendHandlers, if_neg h, ih]
      simp [List.filter_cons, h0]

lemma mem_schedule_remove_past {pool_ok : Nat → Bool} {hs : List Handler}
    {R k : Nat} {h : Handler}
    (hm : h ∈ schedule_downloads pool_ok (remove_past_handlers hs R) k) :
    R < h.result_link.startRowOffset + h.result_link.rowCount := by
  obtain ⟨h0, hh0, he⟩ := schedule_downloads_mem_link hm
  rw [← he]
  exact (mem_remove_past_handlers.mp hh0).2

/-! ### The claims -/

/-- C9: `add_file_links` appends no handler for a link whose `rowCount` is
zero, and appends one fresh unscheduled handler per positive-row link, in the
order the links were given. -/
theorem C9_register_filters_zero_row_links (st : ResultFileDownloadManager)
    (links : List ResultLink) (n : Nat) :
    (st.add_file_links links n).download_handlers =
      st.download_handlers ++
        (links.filter fun l => 0 < l.rowCount).map
          (fun l => { result_link := l, is_download_scheduled := false }) :=
  appendHandlers_eq st.download_handlers links

/-- C7 counterexample: a `register` call with a `next_row_index` below the
current cursor leaves the stored row index smaller than it was before the
call, so the index is not monotone over arbitrary call sequences. -/
theorem C7_highwater_monotone_counterexample :
    (((ResultFileDownloadManager.new 1 false).add_file_links [] 10).add_file_links
        [] 0).cloud_fetch_index <
      ((ResultFileDownloadManager.new 1 false).add_file_links [] 10).cloud_fetch_index := by
  decide

/-- C7 amended: `get_next_downloaded_file` never decreases the stored row
index, and `add_file_links` sets it to exactly the caller-supplied
`next_row_index` — so the index is monotone precisely when each `register`
call supplies an index at least as large as the current one. -/
theorem C7_highwater_monotone_amended :
    (∀ (st : ResultFileDownloadManager) (pool_ok : Nat → Bool) (R : Nat),
        st.cloud_fetch_index ≤
          (get_next_downloaded_file st pool_ok R).1.cloud_fetch_index) ∧
      ∀ (st : ResultFileDownloadManager) (links : List ResultLink) (n : Nat),
        (st.add_file_links links n).cloud_fetch_index = n := by
  constructor
  · intro st pool_ok R
    rcases get_next_cases st pool_ok R with
      ⟨-, heq⟩ | ⟨-, -, heq⟩ |
      ⟨-, idx, handler, st2, n, -, -, hcheck, heq⟩ |
      ⟨-, idx, handler, st2, n, -, -, hcheck, heq⟩
    · rw [heq]
    · rw [heq]
    · have h1 := check_cloud_fetch_index
        { st with download_handlers :=
            schedule_downloads pool_ok (remove_past_handlers st.download_handlers R) 0 }
        handler 0 0
      rw [hcheck] at h1
      rw [heq]
      simp only at h1 ⊢
      omega
    · have h1 := check_cloud_fetch_index
        { st with download_handlers :=
            schedule_downloads pool_ok (remove_past_handlers st.download_handlers R) 0 }
        handler 0 0
      rw [hcheck] at h1
      rw [heq]
      simp only at h1 ⊢
      omega
  · intro st links n
    rfl

/-- C3: after `get_next_downloaded_file st pool_ok R` returns — whatever its
result — no handler whose row range ends at or before `R` remains in the
pending set. -/
theorem C3_eviction_correctness (st : ResultFileDownloadManager)
    (pool_ok : Nat → Bool) (R : Nat) :
    ((get_next_downloaded_file st pool_ok R).1.download_handlers.all
      fun h => R < h.result_link.startRowOffset + h.result_link.rowCount) = true := by
  rw [List.all_eq_true]
  have hmain : ∀ h ∈ schedule_downloads pool_ok
      (remove_past_handlers st.download_handlers R) 0,
      R < h.result_link.startRowOffset + h.result_link.rowCount :=
    fun h hm => mem_schedule_remove_past hm
  rcases get_next_cases st pool_ok R with
    ⟨hnil, heq⟩ | ⟨-, -, heq⟩ |
    ⟨-, idx, handler, st2, n, -, -, hcheck, heq⟩ |
    ⟨-, idx, handler, st2, n, -, -, hcheck, heq⟩
  · rw [heq, hnil]
    intro h hm
    simp at hm
  · rw [heq]
    intro h hm
    simp only [decide_eq_true_eq]
    exact hmain h hm
  · rw [heq]
    intro h hm
    simp only [decide_eq_true_eq]
    have hst2 := check_download_handlers
      { st with download_handlers :=
          schedule_downloads pool_ok (remove_past_handlers st.download_handlers R) 0 }
      handler 0 0
    rw [hcheck] at hst2
    simp only at hst2
    rcases hst2 with hst2 | hst2
    · have hsub : (st2.download_handlers.eraseIdx idx).Sublist st2.download_handlers :=
        List.eraseIdx_sublist st2.download_handlers idx
      have : h ∈ st2.download_handlers := hsub.mem hm
      rw [hst2] at this
      exact hmain h this
    · rw [hst2] at hm
      simp at hm
  · rw [heq]
    intro h hm
    simp only [decide_eq_true_eq]
    have hst2 := check_download_handlers
      { st with download_handlers :=
          schedule_downloads pool_ok (remove_past_handlers st.download_handlers R) 0 }
      handler 0 0
    rw [hcheck] at hst2
    simp only at hst2
    rcases hst2 with hst2 | hst2
    · rw [hst2] at hm
      exact hmain h hm
    · rw [hst2] at hm
      simp at hm

/-- C6 counterexample: with two scheduled pending handlers both starting at
the requested row index 0 — the contract violation — `get_next_downloaded_file`
does not fail loudly: it resolves the first matching handler and delivers its
chunk (payload 77, not 88), picking one of the duplicates. -/
theorem C6_duplicate_match_counterexample :
    (get_next_downloaded_file dupState (fun _ => true) 0).2.1 =
      some { file_bytes := 77, start_row_offset := 0, row_count := 5 } := by
  have hcheck := check_eq_success
    { dupState with
      download_handlers :=
        schedule_downloads (fun _ => true) (remove_past_handlers dupState.download_handlers 0)
          0 }
    { result_link := dupLinkA, is_download_scheduled := true } 0 0 rfl
  have h := get_next_checked_eq dupState (fun _ => true) 0 0
    { result_link := dupLinkA, is_download_scheduled := true } _ true 0
    rfl rfl rfl hcheck
  rw [h]
  rfl

/-- C6 amended: when several scheduled pending handlers match the requested
row index, the locate step does not abort: `_find_next_file_index` returns
the first matching list position — the returned index is a match and no
smaller index matches. -/
theorem C6_duplicate_match_picks_first_amended (hs : List Handler) (R idx : Nat)
    (hfind : find_next_file_index hs R = some idx) :
    (∃ h, hs[idx]? = some h ∧ h.is_download_scheduled = true ∧
      h.result_link.startRowOffset = R) ∧
    ∀ j, j < idx → ∀ h, hs[j]? = some h →
      ¬(h.is_download_scheduled = true ∧ h.result_link.startRowOffset = R) :=
  ⟨find_next_file_index_spec hfind, find_next_file_index_first hfind⟩

/-- C6 amended, instantiated at the duplicate-match state. -/
theorem C6_duplicate_match_picks_first_amended_witness :
    (∃ h, dupState.download_handlers[0]? = some h ∧ h.is_download_scheduled = true ∧
      h.result_link.startRowOffset = 0) ∧
    ∀ j, j < 0 → ∀ h, dupState.download_handlers[j]? = some h →
      ¬(h.is_download_scheduled = true ∧ h.result_link.startRowOffset = 0) :=
  C6_duplicate_match_picks_first_amended dupState.download_handlers 0 0 rfl

/-- C5: if the handler located by `get_next_downloaded_file` times out on
every attempt and the call starts with a zero consecutive-retry counter, the
call performs exactly `max_consecutive_file_download_retries` resubmissions,
then gives up: the retry flag is raised and `NotReady` (`none`) is returned,
with the counter left at the budget. -/
theorem C5_retry_budget_respected (st : ResultFileDownloadManager)
    (pool_ok : Nat → Bool) (R idx : Nat) (handler : Handler)
    (hretries : st.num_consecutive_result_file_download_retries = 0)
    (hne : st.download_handlers.isEmpty = false)
    (hfind : find_next_file_index
      (schedule_downloads pool_ok (remove_past_handlers st.download_handlers R) 0) R =
      some idx)
    (hget : (schedule_downloads pool_ok
        (remove_past_handlers st.download_handlers R) 0)[idx]? = some handler)
    (hto : ∀ k, handler.result_link.outcomes k = Outcome.timedOut) :
    get_next_downloaded_file st pool_ok R =
      ({ st with
          download_handlers :=
            schedule_downloads pool_ok (remove_past_handlers st.download_handlers R) 0
          num_consecutive_result_file_download_retries :=
            st.downloadable_result_settings.max_consecutive_file_download_retries
          fetch_need_retry := true },
        none, st.downloadable_result_settings.max_consecutive_file_download_retries) := by
  have hcheck := check_all_timedOut handler hto
    { st with download_handlers :=
        schedule_downloads pool_ok (remove_past_handlers st.download_handlers R) 0 }
    0 0
  have h := get_next_checked_eq st pool_ok R idx handler _ false _ hne hfind hget hcheck
  rw [h]
  simp only [Bool.false_eq_true, if_false, hretries, Nat.max_zero, Nat.sub_zero,
    Nat.zero_add]

/-- C5, instantiated: one always-timing-out handler and a budget of 2 gives
exactly 2 resubmissions, a raised retry flag and `NotReady`. -/
theorem C5_retry_budget_respected_witness :
    get_next_downloaded_file timeoutState (fun _ => true) 0 =
      ({ timeoutState with
          download_handlers :=
            [{ result_link := timeoutLink, is_download_scheduled := true }]
          num_consecutive_result_file_download_retries := 2
          fetch_need_retry := true }, none, 2) := by
  have h := C5_retry_budget_respected timeoutState (fun _ => true) 0 0
    { result_link := timeoutLink, is_download_scheduled := true }
    rfl rfl rfl rfl (fun k => rfl)
  exact h

/-- C4 counterexample: `expiredPendingState` has a pending handler whose
outcome is `expired` (the one covering rows 10..15), yet the next
`get_next_downloaded_file` call (requesting row 0) resolves the successful
first handler: afterwards the pending set is NOT empty and the retry flag is
NOT raised, contradicting the claim that any pending expired handler empties
the pending set and raises the flag on the next call. -/
theorem C4_expiry_counterexample :
    (expiredPendingState.download_handlers.map
        (fun h => h.result_link.outcomes 0)).contains Outcome.expired = true ∧
    (get_next_downloaded_file expiredPendingState
        (fun _ => true) 0).1.download_handlers ≠ [] ∧
    (get_next_downloaded_file expiredPendingState
        (fun _ => true) 0).1.fetch_need_retry = false := by
  have hcheck := check_eq_success
    { expiredPendingState with
      download_handlers :=
        schedule_downloads (fun _ => true)
          (remove_past_handlers expiredPendingState.download_handlers 0) 0 }
    { result_link := okLink, is_download_scheduled := true } 0 0 rfl
  have h := get_next_checked_eq expiredPendingState (fun _ => true) 0 0
    { result_link := okLink, is_download_scheduled := true } _ true 0
    rfl rfl rfl hcheck
  refine ⟨rfl, ?_, ?_⟩
  · rw [h]
    exact List.cons_ne_nil _ _
  · rw [h]
    rfl

/-- C4 amended: when the handler LOCATED by `get_next_downloaded_file`
resolves to `expired`, the whole pending set is discarded (not just that
handler), the retry flag is raised, and `NotReady` is returned. -/
theorem C4_expiry_clears_batch_amended (st : ResultFileDownloadManager)
    (pool_ok : Nat → Bool) (R idx : Nat) (handler : Handler)
    (hne : st.download_handlers.isEmpty = false)
    (hfind : find_next_file_index
      (schedule_downloads pool_ok (remove_past_handlers st.download_handlers R) 0) R =
      some idx)
    (hget : (schedule_downloads pool_ok
        (remove_past_handlers st.download_handlers R) 0)[idx]? = some handler)
    (ho : handler.result_link.outcomes 0 = Outcome.expired) :
    (get_next_downloaded_file st pool_ok R).1.download_handlers = [] ∧
    (get_next_downloaded_file st pool_ok R).1.fetch_need_retry = true ∧
    (get_next_downloaded_file st pool_ok R).2.1 = none := by
  have hcheck := check_eq_expired
    { st with download_handlers :=
        schedule_downloads pool_ok (remove_past_handlers st.download_handlers R) 0 }
    handler 0 0 ho
  have h := get_next_checked_eq st pool_ok R idx handler _ false 0 hne hfind hget hcheck
  rw [h]
  exact ⟨rfl, rfl, rfl⟩

/-- C4 amended, instantiated at a state whose only (and hence located)
handler has expired. -/
theorem C4_expiry_clears_batch_amended_witness :
    (get_next_downloaded_file expiredOnlyState
        (fun _ => true) 0).1.download_handlers = [] ∧
    (get_next_downloaded_file expiredOnlyState
        (fun _ => true) 0).1.fetch_need_retry = true ∧
    (get_next_downloaded_file expiredOnlyState (fun _ => true) 0).2.1 = none :=
  C4_expiry_clears_batch_amended expiredOnlyState (fun _ => true) 0 0
    { result_link := expiredLink, is_download_scheduled := true } rfl rfl rfl rfl

/-- Concrete evaluation of one successful fetch at `okOnlyState`. -/
lemma okOnlyState_fetch :
    get_next_downloaded_file okOnlyState (fun _ => true) 0 =
      ({ okOnlyState with
          download_handlers := []
          cloud_fetch_index := 10 },
        some { file_bytes := 1, start_row_offset := 0, row_count := 10 }, 0) := by
  have hcheck := check_eq_success
    { okOnlyState with
      download_handlers :=
        schedule_downloads (fun _ => true)
          (remove_past_handlers okOnlyState.download_handlers 0) 0 }
    { result_link := okLink, is_download_scheduled := true } 0 0 rfl
  have h := get_next_checked_eq okOnlyState (fun _ => true) 0 0
    { result_link := okLink, is_download_scheduled := true } _ true 0
    rfl rfl rfl hcheck
  rw [h]
  rfl

/-- C2: whenever `get_next_downloaded_file st pool_ok R` returns a chunk, the
chunk starts exactly at `R` and carries the located link's payload and row
count, the delivering handler is removed from the pending set, the row cursor
advances by exactly that row count, the retry flag is cleared and the
consecutive-timeout counter is reset to zero. -/
theorem C2_success_updates (st : ResultFileDownloadManager) (pool_ok : Nat → Bool)
    (R : Nat) (st1 : ResultFileDownloadManager) (c : DownloadedFile) (n : Nat)
    (hret : get_next_downloaded_file st pool_ok R = (st1, some c, n)) :
    c.start_row_offset = R ∧
    st1.fetch_need_retry = false ∧
    st1.num_consecutive_result_file_download_retries = 0 ∧
    st1.cloud_fetch_index = st.cloud_fetch_index + c.row_count ∧
    ∃ idx handler,
      find_next_file_index
        (schedule_downloads pool_ok (remove_past_handlers st.download_handlers R) 0) R =
        some idx ∧
      (schedule_downloads pool_ok
        (remove_past_handlers st.download_handlers R) 0)[idx]? = some handler ∧
      handler.result_link.startRowOffset = R ∧
      c.row_count = handler.result_link.rowCount ∧
      c.file_bytes = handler.result_link.fileBytes ∧
      st1.download_handlers =
        (schedule_downloads pool_ok
          (remove_past_handlers st.download_handlers R) 0).eraseIdx idx := by
  rcases get_next_cases st pool_ok R with
    ⟨-, heq⟩ | ⟨-, -, heq⟩ |
    ⟨-, idx, handler, st2, m, hfind, hget, hcheck, heq⟩ |
    ⟨-, idx, handler, st2, m, hfind, hget, hcheck, heq⟩
  · rw [hret] at heq
    exact absurd (congrArg (fun p => p.2.1) heq) (by simp)
  · rw [hret] at heq
    exact absurd (congrArg (fun p => p.2.1) heq) (by simp)
  · rw [hret] at heq
    have hst2 := check_success_state
      { st with download_handlers :=
          schedule_downloads pool_ok (remove_past_handlers st.download_handlers R) 0 }
      handler 0 0 hcheck
    subst hst2
    simp only [Prod.mk.injEq, Option.some_inj] at heq
    obtain ⟨h_st1, h_c, h_n⟩ := heq
    subst h_st1
    subst h_c
    obtain ⟨h', hh', hsch', hoff'⟩ := find_next_file_index_spec hfind
    rw [hget] at hh'
    have hhandler : handler = h' := Option.some_inj.mp hh'
    subst hhandler
    exact ⟨hoff', rfl, rfl, rfl, idx, handler, hfind, hget, hoff', rfl, rfl, rfl⟩
  · rw [hret] at heq
    exact absurd (congrArg (fun p => p.2.1) heq) (by simp)

/-- C2, instantiated at a single successful handler for rows 0..10. -/
theorem C2_success_updates_witness :
    ∃ st1 c n, get_next_downloaded_file okOnlyState (fun _ => true) 0 = (st1, some c, n) ∧
      c.start_row_offset = 0 ∧ st1.fetch_need_retry = false ∧
      st1.cloud_fetch_index = c.row_count := by
  refine ⟨_, _, _, okOnlyState_fetch, ?_, ?_, ?_⟩
  · exact (C2_success_updates okOnlyState (fun _ => true) 0 _ _ 0 okOnlyState_fetch).1
  · exact (C2_success_updates okOnlyState (fun _ => true) 0 _ _ 0 okOnlyState_fetch).2.1
  · exact (C2_success_updates okOnlyState (fun _ => true) 0 _ _ 0 okOnlyState_fetch).2.2.2.1

/-- C10: when the located handler never resolves to success and never to
expiry — a non-timeout failure, or timeouts through an exhausted retry
budget — `get_next_downloaded_file` returns `NotReady`, leaves the pending
set exactly as eviction and scheduling produced it (the located handler still
in place at its index), keeps the row cursor and the settings unchanged, and
only raises the retry flag, with the consecutive-timeout counter not
decreasing. -/
theorem C10_failure_leaves_state (st : ResultFileDownloadManager)
    (pool_ok : Nat → Bool) (R idx : Nat) (handler : Handler)
    (hne : st.download_handlers.isEmpty = false)
    (hfind : find_next_file_index
      (schedule_downloads pool_ok (remove_past_handlers st.download_handlers R) 0) R =
      some idx)
    (hget : (schedule_downloads pool_ok
        (remove_past_handlers st.download_handlers R) 0)[idx]? = some handler)
    (hns : ∀ k, handler.result_link.outcomes k ≠ Outcome.success)
    (hnexp : ∀ k, handler.result_link.outcomes k ≠ Outcome.expired) :
    (get_next_downloaded_file st pool_ok R).2.1 = none ∧
    (get_next_downloaded_file st pool_ok R).1.download_handlers =
      schedule_downloads pool_ok (remove_past_handlers st.download_handlers R) 0 ∧
    (get_next_downloaded_file st pool_ok R).1.download_handlers[idx]? = some handler ∧
    (get_next_downloaded_file st pool_ok R).1.cloud_fetch_index = st.cloud_fetch_index ∧
    (get_next_downloaded_file st pool_ok R).1.downloadable_result_settings =
      st.downloadable_result_settings ∧
    (get_next_downloaded_file st pool_ok R).1.fetch_need_retry = true ∧
    st.num_consecutive_result_file_download_retries ≤
      (get_next_downloaded_file
        st pool_ok R).1.num_consecutive_result_file_download_retries := by
  obtain ⟨m, hm, n, hn, hcheck⟩ := check_failure_frame
    { st with download_handlers :=
        schedule_downloads pool_ok (remove_past_handlers st.download_handlers R) 0 }
    handler 0 0 hns hnexp
  have h := get_next_checked_eq st pool_ok R idx handler _ false n hne hfind hget hcheck
  rw [h]
  refine ⟨rfl, rfl, ?_, rfl, rfl, rfl, ?_⟩
  · exact hget
  · exact hm

/-- C10, instantiated at a single always-failing handler. -/
theorem C10_failure_leaves_state_witness :
    (get_next_downloaded_file failedOnlyState (fun _ => true) 0).2.1 = none ∧
    (get_next_downloaded_file failedOnlyState (fun _ => true) 0).1.fetch_need_retry =
      true ∧
    (get_next_downloaded_file failedOnlyState (fun _ => true) 0).1.cloud_fetch_index =
      0 := by
  have h := C10_failure_leaves_state failedOnlyState (fun _ => true) 0 0
    { result_link := failedLink, is_download_scheduled := true } rfl rfl rfl
    (fun k h => Outcome.noConfusion h) (fun k h => Outcome.noConfusion h)
  exact ⟨h.1, h.2.2.2.2.2.1, h.2.2.2.1⟩

/-- C8: one scheduling pass splits the pending list into a prefix whose
handlers are all marked scheduled on return and an untouched suffix; a
non-empty suffix begins at the unscheduled handler whose pool submission was
rejected, so that handler and every later handler keep their flags (in
particular every later unscheduled one stays unscheduled for the next call),
already-scheduled handlers are unaffected, and the pass returns normally
instead of raising. -/
theorem C8_pool_rejection_degrades_gracefully (pool_ok : Nat → Bool)
    (hs : List Handler) :
    ∃ pre suf, hs = pre ++ suf ∧
      schedule_downloads pool_ok hs 0 =
        pre.map (fun h => { h with is_download_scheduled := true }) ++ suf ∧
      (suf ≠ [] → ∃ h t, suf = h :: t ∧ h.is_download_scheduled = false ∧
        pool_ok ((pre.filter fun x => !x.is_download_scheduled).length) = false) := by
  obtain ⟨pre, suf, h1, h2, h3⟩ := schedule_downloads_characterization pool_ok hs 0
  refine ⟨pre, suf, h1, h2, fun hne => ?_⟩
  obtain ⟨h, t, ht, hsch, hpool⟩ := h3 hne
  exact ⟨h, t, ht, hsch, by simpa using hpool⟩

/-! ### Tiling lemmas for the no-gaps property -/

lemma tiles_nil {r N : Nat} (ht : TilesRows [] r N) : r = N := by
  obtain ⟨hle, -, -, hcover⟩ := ht
  by_contra hne
  have hrN : r < N := by omega
  obtain ⟨h, hm, -⟩ := hcover r (le_refl r) hrN
  simp at hm

lemma tiles_pos {h : Handler} {t : List Handler} {r N : Nat}
    (ht : TilesRows (h :: t) r N) : r < N := by
  obtain ⟨-, hbound, -, -⟩ := ht
  have := hbound h (List.mem_cons_self h t)
  omega

lemma tiles_unique_start {hs : List Handler} {r N : Nat}
    (ht : TilesRows hs r N) (hrN : r < N) :
    ∃ (i : Nat) (h0 : Handler), hs[i]? = some h0 ∧
      h0.result_link.startRowOffset = r ∧
      ∀ (j : Nat) (h' : Handler), hs[j]? = some h' →
        h'.result_link.startRowOffset = r → j = i := by
  obtain ⟨hle, hbound, hdisj, hcover⟩ := ht
  obtain ⟨h0, hmem, hcov⟩ := hcover r (le_refl r) hrN
  have hoff : h0.result_link.startRowOffset = r := by
    have h1 := (hbound h0 hmem).1
    have h2 := hcov.1
    omega
  obtain ⟨i, hi, hget⟩ := List.getElem_of_mem hmem
  have hpw := List.pairwise_iff_getElem.mp hdisj
  refine ⟨i, h0, List.getElem?_eq_some_iff.mpr ⟨hi, hget⟩, hoff, ?_⟩
  intro j h' hj hoff'
  by_contra hne
  obtain ⟨hjlt, hgetj⟩ := List.getElem?_eq_some_iff.mp hj
  have hmem' : h' ∈ hs := by
    rw [← hgetj]
    exact List.getElem_mem hjlt
  have hc0 : 0 < h0.result_link.rowCount := (hbound h0 hmem).2.2
  have hc' : 0 < h'.result_link.rowCount := (hbound h' hmem').2.2
  rcases Nat.lt_or_ge j i with hlt | hge
  · have hd := hpw j i hjlt hi hlt
    rw [hgetj, hget] at hd
    rcases hd with hd | hd <;> omega
  · have hlt : i < j := by omega
    have hd := hpw i j hi hjlt hlt
    rw [hgetj, hget] at hd
    rcases hd with hd | hd <;> omega

lemma tiles_after_erase {hs : List Handler} {r N i : Nat} {h0 : Handler}
    (ht : TilesRows hs r N) (hget : hs[i]? = some h0)
    (hoff : h0.result_link.startRowOffset = r) :
    TilesRows (hs.eraseIdx i) (r + h0.result_link.rowCount) N := by
  obtain ⟨hle, hbound, hdisj, hcover⟩ := ht
  obtain ⟨hi, hgeti⟩ := List.getElem?_eq_some_iff.mp hget
  have hmem0 : h0 ∈ hs := by
    rw [← hgeti]
    exact List.getElem_mem hi
  have hb0 := hbound h0 hmem0
  have hsub : (hs.eraseIdx i).Sublist hs := List.eraseIdx_sublist hs i
  have hpw := List.pairwise_iff_getElem.mp hdisj
  have hafter : ∀ (j : Nat) (h' : Handler), j ≠ i → hs[j]? = some h' →
      r + h0.result_link.rowCount ≤ h'.result_link.startRowOffset := by
    intro j h' hne hj
    obtain ⟨hjlt, hgetj⟩ := List.getElem?_eq_some_iff.mp hj
    have hmem' : h' ∈ hs := by
      rw [← hgetj]
      exact List.getElem_mem hjlt
    have hb' := hbound h' hmem'
    rcases Nat.lt_or_ge j i with hlt | hge
    · have hd := hpw j i hjlt hi hlt
      rw [hgetj, hgeti] at hd
      rcases hd with hd | hd <;> omega
    · have hlt : i < j := by omega
      have hd := hpw i j hi hjlt hlt
      rw [hgetj, hgeti] at hd
      rcases hd with hd | hd <;> omega
  refine ⟨by omega, ?_, hdisj.sublist hsub, ?_⟩
  · intro h hm
    obtain ⟨j, hjne, hj⟩ := List.mem_eraseIdx_iff_getElem?.mp hm
    have hmem : h ∈ hs := hsub.mem hm
    have hb := hbound h hmem
    exact ⟨hafter j h hjne hj, hb.2.1, hb.2.2⟩
  · intro x hx1 hx2
    have hrx : r ≤ x := by omega
    obtain ⟨h, hm, hcov⟩ := hcover x hrx hx2
    obtain ⟨j, hjlt, hgetj⟩ := List.getElem_of_mem hm
    have hne : j ≠ i := by
      intro hji
      subst hji
      rw [hgeti] at hgetj
      subst hgetj
      have := hcov.2
      omega
    refine ⟨h, List.mem_eraseIdx_iff_getElem?.mpr
      ⟨j, hne, List.getElem?_eq_some_iff.mpr ⟨hjlt, hgetj⟩⟩, hcov⟩

lemma tiles_map_mark {hs : List Handler} {r N : Nat} (ht : TilesRows hs r N) :
    TilesRows (hs.map fun h => { h with is_download_scheduled := true }) r N := by
  obtain ⟨hle, hbound, hdisj, hcover⟩ := ht
  refine ⟨hle, ?_, ?_, ?_⟩
  · intro h hm
    obtain ⟨h0, hm0, rfl⟩ := List.mem_map.mp hm
    exact hbound h0 hm0
  · exact List.Pairwise.map _ (fun a b hab => hab) hdisj
  · intro x h1 h2
    obtain ⟨h, hm, hcov⟩ := hcover x h1 h2
    exact ⟨_, List.mem_map_of_mem _ hm, hcov⟩

/-- One fetch loop on a tiling, all-successful pending set delivers chunks
tiling `[r, N)`, by induction on the number of pending handlers. -/
lemma fetchAll_tiles (fuel : Nat) :
    ∀ (st : ResultFileDownloadManager) (r N : Nat),
      st.download_handlers.length = fuel →
      TilesRows st.download_handlers r N →
      (∀ h ∈ st.download_handlers, ∀ k,
        h.result_link.outcomes k = Outcome.success) →
      ChunksTile (fetchAll (fun _ => true) st r fuel) r N := by
  induction fuel with
  | zero =>
    intro st r N hlen ht hsucc
    have hnil : st.download_handlers = [] := List.length_eq_zero.mp hlen
    rw [hnil] at ht
    exact tiles_nil ht
  | succ fuel ih =>
    intro st r N hlen ht hsucc
    have hne : st.download_handlers.isEmpty = false := by
      cases hE : st.download_handlers.isEmpty
      · rfl
      · rw [List.isEmpty_iff.mp hE] at hlen
        simp at hlen
    have hrN : r < N := by
      cases hhs : st.download_handlers with
      | nil =>
        rw [hhs] at hlen
        simp at hlen
      | cons a t =>
        rw [hhs] at ht
        exact tiles_pos ht
    obtain ⟨i, h0, hget0, hoff0, huniq⟩ := tiles_unique_start ht hrN
    have hmem0 : h0 ∈ st.download_handlers := List.mem_iff_getElem?.mpr ⟨i, hget0⟩
    have hc0 : 0 < h0.result_link.rowCount := (ht.2.1 h0 hmem0).2.2
    have hremove : remove_past_handlers st.download_handlers r =
        st.download_handlers := by
      apply remove_past_handlers_eq_self
      intro h hm
      have hb := ht.2.1 h hm
      omega
    have hs2eq : schedule_downloads (fun _ => true)
        (remove_past_handlers st.download_handlers r) 0 =
        st.download_handlers.map fun h => { h with is_download_scheduled := true } := by
      rw [hremove]
      exact schedule_downloads_all_ok (fun k => rfl) _ 0
    have hget2 : (st.download_handlers.map
        fun h => { h with is_download_scheduled := true })[i]? =
        some { h0 with is_download_scheduled := true } := by
      rw [List.getElem?_map, hget0]
      rfl
    have hfind : find_next_file_index
        (schedule_downloads (fun _ => true)
          (remove_past_handlers st.download_handlers r) 0) r = some i := by
      rw [hs2eq]
      have hsome := find_next_file_index_isSome hget2 rfl hoff0
      obtain ⟨j, hj⟩ := Option.isSome_iff_exists.mp hsome
      obtain ⟨h', hh', hsch', hoff'⟩ := find_next_file_index_spec hj
      rw [List.getElem?_map] at hh'
      cases hjget : st.download_handlers[j]? with
      | none =>
        rw [hjget] at hh'
        simp at hh'
      | some hj0 =>
        rw [hjget] at hh'
        have hh2 : ({ hj0 with is_download_scheduled := true } : Handler) = h' := by
          simpa using hh'
        have hoffj : hj0.result_link.startRowOffset = r := by
          rw [← hh2] at hoff'
          exact hoff'
        have hji : j = i := huniq j hj0 hjget hoffj
        rw [hji] at hj
        exact hj
    have hget2' : (schedule_downloads (fun _ => true)
        (remove_past_handlers st.download_handlers r) 0)[i]? =
        some { h0 with is_download_scheduled := true } := by
      rw [hs2eq]
      exact hget2
    have hchk : check_if_download_successful
        { st with
          download_handlers :=
            schedule_downloads (fun _ => true)
              (remove_past_handlers st.download_handlers r) 0 }
        { h0 with is_download_scheduled := true } 0 0 =
        ({ { st with
             download_handlers :=
               schedule_downloads (fun _ => true)
                 (remove_past_handlers st.download_handlers r) 0 } with
            num_consecutive_result_file_download_retries := 0
            fetch_need_retry := false }, true, 0) :=
      check_eq_success _ _ 0 0 (hsucc h0 hmem0 0)
    have hstep := get_next_checked_eq st (fun _ => true) r i
      { h0 with is_download_scheduled := true } _ true 0 hne hfind hget2' hchk
    have hfa : fetchAll (fun _ => true) st r (fuel + 1) =
        { file_bytes := h0.result_link.fileBytes
          start_row_offset := h0.result_link.startRowOffset
          row_count := h0.result_link.rowCount } ::
          fetchAll (fun _ => true)
            { st with
                download_handlers :=
                  (st.download_handlers.map
                    fun h => { h with is_download_scheduled := true }).eraseIdx i
                num_consecutive_result_file_download_retries := 0
                fetch_need_retry := false
                cloud_fetch_index := st.cloud_fetch_index + h0.result_link.rowCount }
            (r + h0.result_link.rowCount) fuel := by
      simp [fetchAll, hstep, hs2eq]
    rw [hfa]
    have hilt : i < st.download_handlers.length :=
      (List.getElem?_eq_some_iff.mp hget0).1
    refine ⟨hoff0, hc0, ?_⟩
    refine ih _ (r + h0.result_link.rowCount) N ?_ ?_ ?_
    · show ((st.download_handlers.map
        fun h => { h with is_download_scheduled := true }).eraseIdx i).length = fuel
      rw [List.length_eraseIdx]
      simp only [List.length_map, hlen]
      rw [if_pos (show i < fuel + 1 by omega)]
      omega
    · have ht2 := tiles_after_erase (tiles_map_mark ht) hget2
        (show ({ h0 with is_download_scheduled := true } :
          Handler).result_link.startRowOffset = r from hoff0)
      exact ht2
    · intro h hm k
      obtain ⟨j, hjne, hj⟩ := List.mem_eraseIdx_iff_getElem?.mp hm
      rw [List.getElem?_map] at hj
      cases hjget : st.download_handlers[j]? with
      | none =>
        rw [hjget] at hj
        simp at hj
      | some hj0 =>
        rw [hjget] at hj
        have hh2 : ({ hj0 with is_download_scheduled := true } : Handler) = h := by
          simpa using hj
        have hmemj : hj0 ∈ st.download_handlers := List.mem_iff_getElem?.mpr ⟨j, hjget⟩
        rw [← hh2]
        exact hsucc hj0 hmemj k

/-- C1: from any state whose pending handlers form a gap-free,
non-overlapping cover of rows `[0, N)` — however many `register` calls built
it — and whose downloads all resolve to success, repeatedly calling
`get_next_downloaded_file` starting at row 0 and thereafter at the row index
immediately following the previously delivered chunk yields chunks whose row
ranges tile `[0, N)` exactly: no range is delivered twice and none is
omitted. -/
theorem C1_no_gaps_no_duplicates (st : ResultFileDownloadManager) (N : Nat)
    (htiles : TilesRows st.download_handlers 0 N)
    (hsucc : ∀ h ∈ st.download_handlers, ∀ k,
      h.result_link.outcomes k = Outcome.success) :
    ChunksTile (fetchAll (fun _ => true) st 0 st.download_handlers.length) 0 N :=
  fetchAll_tiles st.download_handlers.length st 0 N rfl htiles hsucc

/-- C1, instantiated at the spec scenario: links `(0,10)` and `(10,15)`
tile `[0, 25)`, and the fetch loop delivers chunks tiling `[0, 25)`. -/
theorem C1_no_gaps_no_duplicates_witness :
    ChunksTile (fetchAll (fun _ => true) scenarioState 0 2) 0 25 := by
  refine C1_no_gaps_no_duplicates scenarioState 25 ⟨by omega, ?_, ?_, ?_⟩ ?_
  · intro h hm
    simp only [scenarioState, exampleState, List.mem_cons,
      List.not_mem_nil, or_false] at hm
    rcases hm with rfl | rfl
    · refine ⟨by omega, by decide, by decide⟩
    · refine ⟨by decide, by decide, by decide⟩
  · show List.Pairwise RangesDisjoint
      [{ result_link := okLink, is_download_scheduled := false },
       { result_link := secondLink, is_download_scheduled := false }]
    refine List.Pairwise.cons ?_ (List.Pairwise.cons ?_ List.Pairwise.nil)
    · intro h' hm'
      simp only [List.mem_cons, List.not_mem_nil, or_false] at hm'
      subst hm'
      exact Or.inl (by decide)
    · intro h' hm'
      simp at hm'
  · intro x hx0 hx25
    by_cases hx : x < 10
    · refine ⟨{ result_link := okLink, is_download_scheduled := false }, ?_, ?_⟩
      · simp [scenarioState, exampleState]
      · show coversRow { result_link := okLink, is_download_scheduled := false } x
        simp only [coversRow, okLink]
        omega
    · refine ⟨{ result_link := secondLink, is_download_scheduled := false }, ?_, ?_⟩
      · simp [scenarioState, exampleState]
      · show coversRow { result_link := secondLink, is_download_scheduled := false } x
        simp only [coversRow, secondLink]
        omega
  · intro h hm k
    simp only [scenarioState, exampleState, List.mem_cons,
      List.not_mem_nil, or_false] at hm
    rcases hm with rfl | rfl
    · rfl
    · rfl

end ResultFileDownloadManager
